import Mathlib

/-!
Verification of the mesh-construction and conformal-layer core of the
`bric_afm` AFM analysis package (`src/bric_afm/mesh.py`,
`src/bric_afm/operations.py`, `src/bric_afm/utils.py`, `src/bric_afm/image.py`).

Numeric samples, axes and heights are modelled as exact rationals (every IEEE
float is a rational; float rounding itself is out of scope).  The only
irrational quantity in the pipeline, the Euclidean magnitude used to normalise
vertex normals, is modelled exactly over the reals.  Numpy arrays that matter
only through their dimensionality are modelled as a shape list plus a flat
(C-order) element list.  The external `trimesh` ray engine is an oracle
parameter: the claims about resampling hold for every list of hit points the
engine may return.
-/

instance {ε α : Type} [DecidableEq ε] [DecidableEq α] :
    DecidableEq (Except ε α) := fun a b =>
  match a, b with
  | .ok a, .ok b =>
      if h : a = b then .isTrue (by rw [h]) else .isFalse (by simp [h])
  | .error a, .error b =>
      if h : a = b then .isTrue (by rw [h]) else .isFalse (by simp [h])
  | .ok _, .error _ => .isFalse (by simp)
  | .error _, .ok _ => .isFalse (by simp)

/-- A numpy `ndarray` of rationals: its shape and its flat C-order contents.
Only the operations that `create_mesh` and `xy_to_coords` actually perform on
their arguments are modelled. -/
structure NDArray where
  shape : List ℕ
  flat : List ℚ
deriving DecidableEq

/-- `a.ndim` of numpy. -/
def NDArray.ndim (a : NDArray) : ℕ := a.shape.length

/-- `utils.xy_to_coords`: `np.stack(np.meshgrid(y, x, indexing="ij"), axis=-1)`.
`np.meshgrid` reshapes each input with `reshape(-1)` (so any input is silently
flattened, whatever its dimensionality) and produces `Y` with `Y[i][j] = y[i]`
and `X` with `X[i][j] = x[j]`; stacking on a new last axis yields the array of
shape `(y.size, x.size, 2)` whose `(i, j)` entry is the pair `(y[i], x[j])`. -/
def xy_to_coords (x y : NDArray) : NDArray :=
  { shape := [y.flat.length, x.flat.length, 2]
    flat := (List.range y.flat.length).flatMap fun i =>
      (List.range x.flat.length).flatMap fun j =>
        [y.flat.getD i 0, x.flat.getD j 0] }

/-- One 1-D pass of `np.gradient` (default `edge_order=1`) with coordinate
array `c`, samples `f` and axis length `n`: first-order one-sided differences
at the two edges and the second-order non-uniform central difference at
interior points (numpy's coefficients `a = -hs/(hd*(hd+hs))`,
`b = (hs-hd)/(hd*hs)`, `c = hd/(hs*(hd+hs))` with `hd = c i - c (i-1)`,
`hs = c (i+1) - c i`). -/
def gradient1D (c f : ℕ → ℚ) (n i : ℕ) : ℚ :=
  if i = 0 then (f 1 - f 0) / (c 1 - c 0)
  else if i = n - 1 then (f (n - 1) - f (n - 2)) / (c (n - 1) - c (n - 2))
  else
    let hd := c i - c (i - 1)
    let hs := c (i + 1) - c i
    (-hs / (hd * (hd + hs))) * f (i - 1)
      + ((hs - hd) / (hd * hs)) * f i
      + (hd / (hs * (hd + hs))) * f (i + 1)

/-- The raw (pre-normalisation) per-sample normal grid of `create_mesh`
(mesh.py lines 46-48): `dx, dy = np.gradient(data, x, y)`,
`dz = np.full_like(data, -1)`, `norms = np.stack([dx, dy, dz], -1)`, flattened
in C order over the `(len x, len y)` grid. -/
def rawNormalsGrid (xf yf : List ℚ) (d : ℕ → ℕ → ℚ) : List (ℚ × ℚ × ℚ) :=
  (List.range xf.length).flatMap fun i =>
    (List.range yf.length).map fun j =>
      (gradient1D (fun k => xf.getD k 0) (fun k => d k j) xf.length i,
       gradient1D (fun k => yf.getD k 0) (fun k => d i k) yf.length j,
       (-1 : ℚ))

/-- The face list of `create_mesh` (mesh.py lines 55-65).  Note that the code
derives `ncols` from `y.shape[0]` and uses `ncols - 1` as the bound of BOTH
comprehension loops. -/
def facesFor (ncols : ℕ) : List (ℕ × ℕ × ℕ) :=
  (List.range (ncols - 1)).flatMap fun i =>
    (List.range (ncols - 1)).flatMap fun j =>
      [(j * ncols + i, (j + 1) * ncols + i, j * ncols + i + 1),
       ((j + 1) * ncols + i, (j + 1) * ncols + i + 1, j * ncols + i + 1)]

/-- `l.min()` of numpy for a nonempty list (numpy raises on an empty array,
which is unreachable here because `np.gradient` has already required at least
two samples per axis). -/
def minFlat (l : List ℚ) : ℚ :=
  match l with
  | [] => 0
  | h :: t => t.foldl min h

/-- The mesh value returned by `create_mesh`.  `trimesh.Trimesh` is modelled
as a plain record of what `create_mesh` passes to it; the stored
`vertex_normals` are the raw gradient vectors, whose exact (real-valued)
normalisation is the separate view `vertexNormalsOf` below.  Colors are kept
as the flat scalar list handed to `trimesh.visual.color.interpolate` (the
colormap lookup itself carries no information any claim depends on). -/
structure MeshQ where
  vertices : List (ℚ × ℚ × ℚ)
  faces : List (ℕ × ℕ × ℕ)
  rawNormals : List (ℚ × ℚ × ℚ)
  vertexColors : Option (List ℚ)
deriving DecidableEq

/-- The dimension check on the optional `colors` argument
(mesh.py lines 42-43). -/
def colorsNdimBad (colors : Option NDArray) : Bool :=
  match colors with
  | none => false
  | some c => c.ndim != 2

/-- `mesh.create_mesh` (mesh.py lines 36-76).  Fallible steps return
`Except`:
* the four explicit `ndim` checks raise `ValueError` (lines 36-43);
* `np.gradient(data, x, y)` (line 46) raises when a coordinate array's length
  differs from the matching dimension of `data`, or when a dimension has
  fewer than two samples;
* `np.insert(coords, 2, data - data.min(), axis=-1)` (line 53) broadcasts the
  `(nx, ny)` height grid into the `(ny, nx)` leading shape of the coordinate
  grid and raises unless `nx = ny` (both are at least 2 here).
Vertex `(i, j)` reads its coordinate pair out of `xy_to_coords` exactly where
`np.insert` places the height value. -/
def create_mesh (x y data : NDArray) (colors : Option NDArray) :
    Except String MeshQ :=
  if x.ndim ≠ 1 then .error "invalid dimension for x"
  else if y.ndim ≠ 1 then .error "invalid dimension for y"
  else if data.ndim ≠ 2 then .error "invalid dimension for data"
  else if colorsNdimBad colors then .error "invalid dimension for colors"
  else
    let nx := data.shape.headD 0
    let ny := (data.shape.drop 1).headD 0
    if x.flat.length ≠ nx ∨ y.flat.length ≠ ny then
      .error "gradient: coordinate array length does not match data shape"
    else if nx < 2 ∨ ny < 2 then
      .error "gradient: at least 2 elements are required along each axis"
    else
      let d : ℕ → ℕ → ℚ := fun i j => data.flat.getD (i * ny + j) 0
      let norms := rawNormalsGrid x.flat y.flat d
      if nx ≠ ny then
        .error "could not broadcast input array into coordinate grid shape"
      else
        let m := minFlat data.flat
        let coords := xy_to_coords x y
        let vertices :=
          (List.range y.flat.length).flatMap fun i =>
            (List.range x.flat.length).map fun j =>
              (coords.flat.getD (2 * (i * x.flat.length + j)) 0,
               coords.flat.getD (2 * (i * x.flat.length + j) + 1) 0,
               d i j - m)
        .ok { vertices := vertices
              faces := facesFor y.flat.length
              rawNormals := norms
              vertexColors := colors.map (·.flat) }

/-- Euclidean magnitude of a raw normal vector, exactly over the reals
(`np.linalg.norm(norms, axis=-1)`, mesh.py line 49). -/
noncomputable def mag3 (v : ℚ × ℚ × ℚ) : ℝ :=
  Real.sqrt ((v.1 : ℝ) ^ 2 + (v.2.1 : ℝ) ^ 2 + (v.2.2 : ℝ) ^ 2)

/-- The normalised outward vertex normal `-raw / ‖raw‖`
(mesh.py line 50), exactly over the reals. -/
noncomputable def unitNormal (v : ℚ × ℚ × ℚ) : ℝ × ℝ × ℝ :=
  (-(v.1 : ℝ) / mag3 v, -(v.2.1 : ℝ) / mag3 v, -(v.2.2 : ℝ) / mag3 v)

/-- Magnitude of a real 3-vector (used to state unit length of the
normalised normals). -/
noncomputable def norm3R (w : ℝ × ℝ × ℝ) : ℝ :=
  Real.sqrt (w.1 ^ 2 + w.2.1 ^ 2 + w.2.2 ^ 2)

/-- The `vertex_normals` as stored in the returned `trimesh.Trimesh`:
the raw gradient vectors of the mesh, each normalised. -/
noncomputable def vertexNormalsOf (m : MeshQ) : List (ℝ × ℝ × ℝ) :=
  m.rawNormals.map unitNormal

/-- A mesh with real-valued vertices: the `offset_mesh` of
`add_conformal_layer` (`trimesh.Trimesh(vertices=offset_vertices,
faces=m.faces, process=False)`, operations.py lines 114-116). -/
structure MeshR where
  vertices : List (ℝ × ℝ × ℝ)
  faces : List (ℕ × ℕ × ℕ)

/-- `offset_vertices = m.vertices + thickness * m.vertex_normals`
(operations.py line 113). -/
noncomputable def offsetVertices (m : MeshQ) (thickness : ℚ) :
    List (ℝ × ℝ × ℝ) :=
  List.zipWith
    (fun v n => ((v.1 : ℝ) + thickness * n.1,
                 (v.2.1 : ℝ) + thickness * n.2.1,
                 (v.2.2 : ℝ) + thickness * n.2.2))
    m.vertices (vertexNormalsOf m)

/-- The offset mesh of `add_conformal_layer`: translated vertices, the base
mesh's face list unchanged, `process=False`. -/
noncomputable def offsetMeshOf (m : MeshQ) (thickness : ℚ) : MeshR :=
  { vertices := offsetVertices m thickness, faces := m.faces }

/-- An `image.Channel` as consumed by `operations.add_conformal_layer`: its
axes and its 2-D height data (the `x`, `y` and `data` properties all return
copies, so value semantics are exact). -/
structure Channel where
  x : List ℚ
  y : List ℚ
  data : List (List ℚ)
deriving DecidableEq

/-- All rows of the height grid have the same length (a numpy 2-D array
cannot be ragged). -/
def channelWF (ch : Channel) : Bool :=
  ch.data.all fun r => r.length = (ch.data.headD []).length

/-- A height grid with gap markers: `none` models `numpy.nan`. -/
def toOptGrid (g : List (List ℚ)) : List (List (Option ℚ)) :=
  g.map fun row => row.map some

/-- The shape of a (possibly ragged) grid: row count and each row's length. -/
def gridShape {α : Type} (g : List (List α)) : ℕ × List ℕ :=
  (g.length, g.map List.length)

/-- Whether a pipeline step raised (`Except.error`). -/
def raisesError {α : Type} (r : Except String α) : Bool :=
  match r with
  | .error _ => true
  | .ok _ => false

/-- `np.searchsorted(a, v, side="left")`: the left insertion point, which for
a sorted axis is the number of elements strictly below `v`. -/
def searchsortedLeft (a : List ℚ) (v : ℚ) : ℕ :=
  a.countP fun u => u < v

/-- `np.ravel_multi_index([ix, iy], (d1, d2))` with the default
`mode="raise"`: the C-order flat index, or `ValueError` when a coordinate is
out of bounds. -/
def ravel_multi_index (ix iy d1 d2 : ℕ) : Except String ℕ :=
  if ix < d1 ∧ iy < d2 then .ok (ix * d2 + iy)
  else .error "invalid entry in coordinates array"

/-- `arr.put(indices, values)`: sequential scatter into the flat view, later
writes overwriting earlier ones.  Indices are in bounds here because
`ravel_multi_index` has already validated them. -/
def npPut (g : List (Option ℚ)) (writes : List (ℕ × ℚ)) : List (Option ℚ) :=
  writes.foldl (fun g w => g.set w.1 (some w.2)) g

/-- The flat index and height a single ray hit scatters to
(operations.py lines 126-131). -/
def hitWrite (xs ys : List ℚ) (d1 d2 : ℕ) (p : ℚ × ℚ × ℚ) :
    Except String (ℕ × ℚ) :=
  (ravel_multi_index (searchsortedLeft xs p.1) (searchsortedLeft ys p.2.1)
    d1 d2).map fun k => (k, p.2.2)

/-- Elementwise fallible map (`Except` short-circuits exactly where numpy's
vectorised `ravel_multi_index` raises on any bad coordinate). -/
def exceptMapList {α β : Type} (f : α → Except String β) :
    List α → Except String (List β)
  | [] => .ok []
  | a :: l =>
    match f a with
    | .error e => .error e
    | .ok b =>
      match exceptMapList f l with
      | .error e => .error e
      | .ok bs => .ok (b :: bs)

/-- The grid-resampling stage of `add_conformal_layer`
(operations.py lines 126-133): map every intersection point to a flat grid
index via left-biased `searchsorted` on each scaled axis and
`ravel_multi_index` against the height grid's shape `(d1, d2)`, then scatter
the hit heights into an all-NaN grid of shape `(x.size, y.size)`. -/
def resample (xs ys : List ℚ) (d1 d2 : ℕ) (hits : List (ℚ × ℚ × ℚ)) :
    Except String (List (Option ℚ)) :=
  match exceptMapList (hitWrite xs ys d1 d2) hits with
  | .error e => .error e
  | .ok writes =>
    .ok (npPut (List.replicate (xs.length * ys.length) none) writes)

/-- Keep the payload of a successful step if the selector accepts it. -/
def exceptSelect {β γ : Type} (g : β → Option γ) :
    Except String β → Option γ
  | .ok b => g b
  | .error _ => none

/-- The height last scattered into flat cell `k`, if any: the value that
last-write-wins leaves there. -/
def lastWriteAt (xs ys : List ℚ) (d1 d2 : ℕ) (hits : List (ℚ × ℚ × ℚ))
    (k : ℕ) : Option ℚ :=
  (hits.filterMap fun p =>
    exceptSelect (fun w => if w.1 = k then some w.2 else none)
      (hitWrite xs ys d1 d2 p)).getLast?

/-- View a flat buffer as the `(nx, ny)` grid it fills in C order (the
returned `vertices` array of `add_conformal_layer` is allocated as a 2-D
`np.full((x.size, y.size), np.nan)` whose flat view `put` writes into). -/
def reshape2 (nx ny : ℕ) (flat : List (Option ℚ)) : List (List (Option ℚ)) :=
  (List.range nx).map fun i =>
    (List.range ny).map fun j => flat.getD (i * ny + j) none

/-- The type of the external `trimesh` ray engine
(`offset_mesh.ray.intersects_location(ray_origins, ray_directions,
multiple_hits=False)`): from the offset mesh, the ray origins and the ray
directions it produces the list of intersection points, in some order, one
per ray that hits (rays that miss simply contribute nothing).  Hit
coordinates are rationals (floats are rationals).  All claims about
`add_conformal_layer` are proved for every engine. -/
def RayEngine : Type :=
  MeshR → List (ℝ × ℝ × ℝ) → List (ℝ × ℝ × ℝ) → List (ℚ × ℚ × ℚ)

/-- Maximum of a list of reals with numpy's nonempty-array semantics
(`offset_mesh.vertices[:, -1].max()`). -/
noncomputable def maxListR (l : List ℝ) : ℝ :=
  l.foldl max (l.headD 0)

/-- The ray origins of `add_conformal_layer` (operations.py lines 118-120):
the base mesh's vertices with the z-coordinate replaced by
`offset_mesh.vertices[:, -1].max() + 1`. -/
noncomputable def rayOriginsOf (m : MeshQ) (om : MeshR) :
    List (ℝ × ℝ × ℝ) :=
  m.vertices.map fun v => ((v.1 : ℝ), (v.2.1 : ℝ),
    maxListR (om.vertices.map (·.2.2)) + 1)

/-- `operations.add_conformal_layer` (operations.py lines 72-135):
parameter validation, the zero-thickness no-op, mesh construction on the
rescaled axes and heights, vertex offsetting along the normals, vertical
ray casting from above the offset surface (delegated to the engine oracle),
and grid resampling, with the result divided back by `scale`. -/
noncomputable def add_conformal_layer (engine : RayEngine) (ch : Channel)
    (thickness scale : ℚ) : Except String (List (List (Option ℚ))) :=
  if thickness < 0 then .error "thickness can not be negative"
  else if scale ≤ 0 then .error "invalid scale, must be greater than 0"
  else if thickness = 0 then .ok (toOptGrid ch.data)
  else
    match create_mesh ⟨[(ch.x.map (· * scale)).length], ch.x.map (· * scale)⟩
        ⟨[(ch.y.map (· * scale)).length], ch.y.map (· * scale)⟩
        ⟨[ch.data.length, (ch.data.headD []).length],
          (ch.data.map fun r => r.map (· * scale)).flatten⟩ none with
    | .error e => .error e
    | .ok m =>
      match resample (ch.x.map (· * scale)) (ch.y.map (· * scale))
          ch.data.length (ch.data.headD []).length
          (engine (offsetMeshOf m thickness)
            (rayOriginsOf m (offsetMeshOf m thickness))
            ((rayOriginsOf m (offsetMeshOf m thickness)).map
              fun _ => ((0 : ℝ), (0 : ℝ), (-1 : ℝ)))) with
      | .error e => .error e
      | .ok flat =>
        .ok (reshape2 (ch.x.map (· * scale)).length
          (ch.y.map (· * scale)).length
          (flat.map (Option.map (· / scale))))

/-! ## General helper lemmas -/

theorem length_flatMapRange {α : Type} (f : ℕ → List α) (n L : ℕ)
    (h : ∀ k, k < n → (f k).length = L) :
    ((List.range n).flatMap f).length = n * L := by
  induction n with
  | zero => simp
  | succ n ih =>
    rw [List.range_succ, List.flatMap_append, List.length_append,
      ih (fun k hk => h k (by omega)), List.flatMap_cons, List.flatMap_nil,
      List.append_nil, h n (by omega)]
    ring

theorem getD_flatMapRange {α : Type} (f : ℕ → List α) (n L : ℕ) (d : α)
    (h : ∀ k, k < n → (f k).length = L) (i r : ℕ) (hi : i < n) (hr : r < L) :
    ((List.range n).flatMap f).getD (i * L + r) d = (f i).getD r d := by
  induction n generalizing f i with
  | zero => omega
  | succ n ih =>
    rw [List.range_succ_eq_map, List.flatMap_cons, List.flatMap_map]
    match i with
    | 0 =>
      simp only [Nat.zero_mul, Nat.zero_add]
      exact List.getD_append _ _ _ _ (by rw [h 0 (by omega)]; exact hr)
    | i + 1 =>
      have hlen : (f 0).length = L := h 0 (by omega)
      have hidx : (i + 1) * L + r = L + (i * L + r) := by ring
      rw [hidx, List.getD_append_right _ _ _ _ (by omega),
        show L + (i * L + r) - (f 0).length = i * L + r by omega]
      exact ih (fun k => f (k + 1)) (fun k hk => h (k + 1) (by omega)) i
        (by omega)

theorem flatMapRange_const {α : Type} (g : ℕ → ℕ → α) (v : α) (nx ny : ℕ)
    (h : ∀ i, i < nx → ∀ j, j < ny → g i j = v) :
    ((List.range nx).flatMap fun i => (List.range ny).map (g i))
      = List.replicate (nx * ny) v := by
  induction nx with
  | zero => simp
  | succ n ih =>
    rw [List.range_succ, List.flatMap_append,
      ih (fun i hi j hj => h i (by omega) j hj), List.flatMap_cons,
      List.flatMap_nil, List.append_nil, Nat.succ_mul, List.replicate_add]
    congr 1
    have : ((List.range ny).map (g n)) = (List.range ny).map fun _ => v := by
      apply List.map_congr_left
      intro j hj
      exact h n (by omega) j (List.mem_range.mp hj)
    rw [this, List.map_const']
    simp

theorem flatMapRange_congr {α : Type} (g g' : ℕ → ℕ → α) (nx ny : ℕ)
    (h : ∀ i, i < nx → ∀ j, j < ny → g i j = g' i j) :
    ((List.range nx).flatMap fun i => (List.range ny).map (g i))
      = (List.range nx).flatMap fun i => (List.range ny).map (g' i) := by
  have : ((List.range nx).map fun i => (List.range ny).map (g i))
      = (List.range nx).map fun i => (List.range ny).map (g' i) := by
    apply List.map_congr_left
    intro i hi
    apply List.map_congr_left
    intro j hj
    exact h i (List.mem_range.mp hi) j (List.mem_range.mp hj)
  rw [List.flatMap_def, this, ← List.flatMap_def]

theorem getD_mapRange {α : Type} (f : ℕ → α) (L r : ℕ) (d : α) (hr : r < L) :
    ((List.range L).map f).getD r d = f r := by
  rw [List.getD_eq_getElem _ _ (by simpa using hr)]
  simp

theorem flatMapRange_getD_self {α : Type} (l : List α) (d : α) (nx ny : ℕ)
    (hl : l.length = nx * ny) :
    ((List.range nx).flatMap fun i =>
      (List.range ny).map fun j => l.getD (i * ny + j) d) = l := by
  have hlen : ∀ k, k < nx → ((List.range ny).map fun j =>
      l.getD (k * ny + j) d).length = ny := by
    intro k _
    simp
  apply List.ext_getElem
  · rw [length_flatMapRange _ _ _ hlen, hl]
  · intro k h1 h2
    have h1' : k < nx * ny := by
      rw [length_flatMapRange _ _ _ hlen] at h1
      exact h1
    have hny : 0 < ny := by
      rcases Nat.eq_zero_or_pos ny with h | h
      · subst h
        simp at h1'
      · exact h
    have hi : k / ny < nx := Nat.div_lt_of_lt_mul (by rwa [Nat.mul_comm] at h1')
    have hr : k % ny < ny := Nat.mod_lt _ hny
    have hsplit : k = k / ny * ny + k % ny := by
      rw [Nat.mul_comm]
      exact (Nat.div_add_mod k ny).symm
    rw [← List.getD_eq_getElem _ d h1, ← List.getD_eq_getElem _ d h2,
      hsplit, getD_flatMapRange _ _ _ _ hlen _ _ hi hr,
      getD_mapRange _ _ _ _ hr, ← hsplit]

theorem foldl_min_map_sub (t : List ℚ) (c : ℚ) :
    ∀ a, (t.map (· - c)).foldl min (a - c) = t.foldl min a - c := by
  induction t with
  | nil => intro a; rfl
  | cons x t ih =>
    intro a
    rw [List.map_cons, List.foldl_cons, List.foldl_cons, min_sub_sub_right]
    exact ih (min a x)

theorem minFlat_map_sub (l : List ℚ) (c : ℚ) (h : l ≠ []) :
    minFlat (l.map (· - c)) = minFlat l - c := by
  match l with
  | [] => exact absurd rfl h
  | x :: t =>
    show (t.map (· - c)).foldl min (x - c) = t.foldl min x - c
    exact foldl_min_map_sub t c x

theorem getD_set_self {α : Type} (l : List α) (i : ℕ) (v d : α)
    (h : i < l.length) : (l.set i v).getD i d = v := by
  rw [List.getD_eq_getElem _ _ (by simpa using h)]
  exact List.getElem_set_self (by simpa using h)

theorem getD_set_ne {α : Type} (l : List α) (i k : ℕ) (v d : α) (h : i ≠ k)
    (hk : k < l.length) : (l.set i v).getD k d = l.getD k d := by
  rw [List.getD_eq_getElem _ _ (by simpa using hk),
    List.getD_eq_getElem _ _ hk]
  exact List.getElem_set_of_ne h _ _

theorem npPut_length (ws : List (ℕ × ℚ)) :
    ∀ g : List (Option ℚ), (npPut g ws).length = g.length := by
  induction ws with
  | nil => intro g; rfl
  | cons w ws ih =>
    intro g
    show (npPut (g.set w.1 (some w.2)) ws).length = _
    rw [ih, List.length_set]

theorem npPut_getD (ws : List (ℕ × ℚ)) :
    ∀ (g : List (Option ℚ)) (k : ℕ), k < g.length →
    (npPut g ws).getD k none =
      match (ws.filterMap fun w =>
          if w.1 = k then some w.2 else none).getLast? with
      | some z => some z
      | none => g.getD k none := by
  induction ws with
  | nil => intro g k _; rfl
  | cons w ws ih =>
    intro g k hk
    have step : npPut g (w :: ws) = npPut (g.set w.1 (some w.2)) ws := rfl
    rw [step, ih (g.set w.1 (some w.2)) k (by simpa using hk)]
    by_cases hw : w.1 = k
    · have hcons : ((w :: ws).filterMap fun u =>
          if u.1 = k then some u.2 else none)
          = w.2 :: ws.filterMap fun u => if u.1 = k then some u.2 else none := by
        rw [List.filterMap_cons, if_pos hw]
      rw [hcons]
      cases hl : ws.filterMap fun u => if u.1 = k then some u.2 else none with
      | nil =>
        subst hw
        simp only [List.getLast?_nil, List.getLast?_singleton]
        exact getD_set_self g w.1 (some w.2) none hk
      | cons b bs =>
        rw [List.getLast?_cons_cons]
        cases hs : (b :: bs).getLast? with
        | some z => rfl
        | none => exact absurd (List.getLast?_eq_none_iff.mp hs) (by simp)
    · have hcons : ((w :: ws).filterMap fun u =>
          if u.1 = k then some u.2 else none)
          = ws.filterMap fun u => if u.1 = k then some u.2 else none := by
        rw [List.filterMap_cons, if_neg hw]
      rw [hcons, getD_set_ne g w.1 k (some w.2) none hw hk]

theorem exceptMapList_ok_filterMap {α β γ : Type} (f : α → Except String β)
    (g : β → Option γ) :
    ∀ (l : List α) (ws : List β), exceptMapList f l = .ok ws →
    ws.filterMap g = l.filterMap fun a => exceptSelect g (f a) := by
  intro l
  induction l with
  | nil =>
    intro ws h
    obtain rfl : ([] : List β) = ws := by
      injection h
    rfl
  | cons a l ih =>
    intro ws h
    rw [List.filterMap_cons]
    cases hfa : f a with
    | error e =>
      rw [exceptMapList, hfa] at h
      cases h
    | ok b =>
      rw [exceptMapList, hfa] at h
      cases hml : exceptMapList f l with
      | error e =>
        rw [hml] at h
        cases h
      | ok bs =>
        rw [hml] at h
        obtain rfl : b :: bs = ws := by
          injection h
        rw [List.filterMap_cons, ih bs hml]
        rfl

theorem getD_zipWith {α β γ : Type} (f : α → β → γ) (l1 : List α)
    (l2 : List β) (k : ℕ) (da : α) (db : β) (dc : γ) (h1 : k < l1.length)
    (h2 : k < l2.length) :
    (List.zipWith f l1 l2).getD k dc = f (l1.getD k da) (l2.getD k db) := by
  rw [List.getD_eq_getElem?_getD, List.getElem?_zipWith,
    List.getElem?_eq_getElem h1, List.getElem?_eq_getElem h2,
    List.getD_eq_getElem _ _ h1, List.getD_eq_getElem _ _ h2]
  rfl

/-! ## Lemmas about the embedded pipeline stages -/

theorem xy_to_coords_getD (x y : NDArray) (i j : ℕ) (hi : i < y.flat.length)
    (hj : j < x.flat.length) :
    (xy_to_coords x y).flat.getD (2 * (i * x.flat.length + j)) 0
        = y.flat.getD i 0
    ∧ (xy_to_coords x y).flat.getD (2 * (i * x.flat.length + j) + 1) 0
        = x.flat.getD j 0 := by
  have hinner : ∀ i', i' < y.flat.length →
      ((List.range x.flat.length).flatMap fun j' =>
        [y.flat.getD i' 0, x.flat.getD j' 0]).length = x.flat.length * 2 := by
    intro i' _
    exact length_flatMapRange
      (fun j' => [y.flat.getD i' 0, x.flat.getD j' 0]) x.flat.length 2
      fun k _ => rfl
  have hpair : ∀ b, b < 2 →
      (xy_to_coords x y).flat.getD (2 * (i * x.flat.length + j) + b) 0
        = [y.flat.getD i 0, x.flat.getD j 0].getD b 0 := by
    intro b hb
    have hidx : 2 * (i * x.flat.length + j) + b
        = i * (x.flat.length * 2) + (j * 2 + b) := by ring
    have hr : j * 2 + b < x.flat.length * 2 := by omega
    show ((List.range y.flat.length).flatMap fun i' =>
        (List.range x.flat.length).flatMap fun j' =>
          [y.flat.getD i' 0, x.flat.getD j' 0]).getD
          (2 * (i * x.flat.length + j) + b) 0 = _
    rw [hidx, getD_flatMapRange _ _ _ _ hinner i (j * 2 + b) hi hr,
      getD_flatMapRange (fun j' => [y.flat.getD i 0, x.flat.getD j' 0])
        x.flat.length 2 0 (fun k _ => rfl) j b hj hb]
  exact ⟨hpair 0 (by omega), hpair 1 (by omega)⟩

theorem gradient1D_congr (c c' f f' : ℕ → ℚ) (n i : ℕ) (h2 : 2 ≤ n)
    (hi : i < n) (hc : ∀ k, k < n → c k = c' k)
    (hf : ∀ k, k < n → f k = f' k) :
    gradient1D c f n i = gradient1D c' f' n i := by
  unfold gradient1D
  split_ifs with h0 hl
  · rw [hc 0 (by omega), hc 1 (by omega), hf 0 (by omega), hf 1 (by omega)]
  · rw [hc (n - 1) (by omega), hc (n - 2) (by omega), hf (n - 1) (by omega),
      hf (n - 2) (by omega)]
  · rw [hc (i - 1) (by omega), hc i hi, hc (i + 1) (by omega),
      hf (i - 1) (by omega), hf i hi, hf (i + 1) (by omega)]

theorem gradient1D_const (c : ℕ → ℚ) (v : ℚ) (n i : ℕ) (hi : i < n)
    (hmono : ∀ k, k + 1 < n → c k < c (k + 1)) :
    gradient1D c (fun _ => v) n i = 0 := by
  unfold gradient1D
  split_ifs with h0 hl
  · simp
  · simp
  · have h1 : i - 1 + 1 = i := by omega
    have hd : 0 < c i - c (i - 1) := by
      have := hmono (i - 1) (by omega)
      rw [h1] at this
      linarith
    have hs : 0 < c (i + 1) - c i := by
      have := hmono i (by omega)
      linarith
    have key : ∀ u w : ℚ, 0 < u → 0 < w →
        (-w / (u * (u + w))) * v + ((w - u) / (u * w)) * v
          + (u / (w * (u + w))) * v = 0 := by
      intro u w hu hw
      have hu0 : u ≠ 0 := ne_of_gt hu
      have hw0 : w ≠ 0 := ne_of_gt hw
      have huw : u + w ≠ 0 := ne_of_gt (by linarith)
      field_simp
      ring
    exact key (c i - c (i - 1)) (c (i + 1) - c i) hd hs

theorem gradient1D_linear_uniform (x0 dl a K : ℚ) (n i : ℕ) (hdl : dl ≠ 0)
    (h2 : 2 ≤ n) (hi : i < n) :
    gradient1D (fun k => x0 + (k : ℚ) * dl)
      (fun k => a * (x0 + (k : ℚ) * dl) + K) n i = a := by
  unfold gradient1D
  split_ifs with h0 hl
  · rw [show (a * (x0 + ((1 : ℕ) : ℚ) * dl) + K)
        - (a * (x0 + ((0 : ℕ) : ℚ) * dl) + K) = a * dl by push_cast; ring,
      show x0 + ((1 : ℕ) : ℚ) * dl - (x0 + ((0 : ℕ) : ℚ) * dl) = dl by
        push_cast; ring]
    field_simp
  · have hc1 : ((n - 1 : ℕ) : ℚ) = (n : ℚ) - 1 := by
      push_cast [Nat.cast_sub (show 1 ≤ n by omega)]
      ring
    have hc2 : ((n - 2 : ℕ) : ℚ) = (n : ℚ) - 2 := by
      push_cast [Nat.cast_sub h2]
      ring
    rw [show (a * (x0 + ((n - 1 : ℕ) : ℚ) * dl) + K)
        - (a * (x0 + ((n - 2 : ℕ) : ℚ) * dl) + K) = a * dl by
        rw [hc1, hc2]; ring,
      show x0 + ((n - 1 : ℕ) : ℚ) * dl - (x0 + ((n - 2 : ℕ) : ℚ) * dl) = dl by
        rw [hc1, hc2]; ring]
    field_simp
  · have hc : ((i - 1 : ℕ) : ℚ) = (i : ℚ) - 1 := by
      push_cast [Nat.cast_sub (show 1 ≤ i by omega)]
      ring
    have key : ∀ p q r fp fq fr : ℚ, q - p = dl → r - q = dl →
        fq - fp = a * dl → fr - fq = a * dl →
        (-(r - q) / ((q - p) * ((q - p) + (r - q)))) * fp
          + (((r - q) - (q - p)) / ((q - p) * (r - q))) * fq
          + ((q - p) / ((r - q) * ((q - p) + (r - q)))) * fr = a := by
      intro p q r fp fq fr h1 h2' h3 h4
      have hq : q = p + dl := by linarith
      have hr : r = p + 2 * dl := by linarith
      have hfq : fq = fp + a * dl := by linarith
      have hfr : fr = fp + 2 * (a * dl) := by linarith
      subst hq hr hfq hfr
      have h2dl : dl + dl ≠ 0 := fun h => hdl (by linarith)
      rw [show p + dl - p = dl from by ring,
        show p + 2 * dl - (p + dl) = dl from by ring,
        sub_self, zero_div, zero_mul, add_zero]
      field_simp
      ring
    exact key _ _ _ _ _ _
      (by
        show x0 + (i : ℚ) * dl - (x0 + ((i - 1 : ℕ) : ℚ) * dl) = dl
        rw [hc]
        ring)
      (by
        show x0 + ((i + 1 : ℕ) : ℚ) * dl - (x0 + (i : ℚ) * dl) = dl
        push_cast
        ring)
      (by
        show a * (x0 + (i : ℚ) * dl) + K
            - (a * (x0 + ((i - 1 : ℕ) : ℚ) * dl) + K) = a * dl
        rw [hc]
        ring)
      (by
        show a * (x0 + ((i + 1 : ℕ) : ℚ) * dl) + K
            - (a * (x0 + (i : ℚ) * dl) + K) = a * dl
        push_cast
        ring)

theorem create_mesh_ok_inv (x y data : NDArray) (colors : Option NDArray)
    (m : MeshQ) (h : create_mesh x y data colors = .ok m) :
    x.ndim = 1 ∧ y.ndim = 1 ∧ data.ndim = 2
    ∧ x.flat.length = data.shape.headD 0
    ∧ y.flat.length = (data.shape.drop 1).headD 0
    ∧ 2 ≤ data.shape.headD 0 ∧ 2 ≤ (data.shape.drop 1).headD 0
    ∧ data.shape.headD 0 = (data.shape.drop 1).headD 0
    ∧ m.rawNormals = rawNormalsGrid x.flat y.flat
        (fun i j => data.flat.getD (i * ((data.shape.drop 1).headD 0) + j) 0)
    ∧ m.faces = facesFor y.flat.length
    ∧ m.vertices = ((List.range y.flat.length).flatMap fun i =>
        (List.range x.flat.length).map fun j =>
          ((xy_to_coords x y).flat.getD (2 * (i * x.flat.length + j)) 0,
           (xy_to_coords x y).flat.getD (2 * (i * x.flat.length + j) + 1) 0,
           data.flat.getD (i * ((data.shape.drop 1).headD 0) + j) 0
             - minFlat data.flat))
    ∧ m.vertexColors = colors.map (·.flat) := by
  simp only [create_mesh] at h
  split_ifs at h with h1 h2 h3 h4 h5 h6 h7
  push_neg at h1 h2 h3 h5 h6 h7
  injection h with hm
  subst hm
  exact ⟨h1, h2, h3, h5.1, h5.2, by omega, by omega, h7,
    rfl, rfl, rfl, rfl⟩

theorem create_mesh_square_ok (N : ℕ) (hN : 2 ≤ N) (xf yf df : List ℚ)
    (hx : xf.length = N) (hy : yf.length = N) :
    create_mesh ⟨[N], xf⟩ ⟨[N], yf⟩ ⟨[N, N], df⟩ none
      = .ok { vertices := (List.range yf.length).flatMap fun i =>
                (List.range xf.length).map fun j =>
                  ((xy_to_coords ⟨[N], xf⟩ ⟨[N], yf⟩).flat.getD
                      (2 * (i * xf.length + j)) 0,
                   (xy_to_coords ⟨[N], xf⟩ ⟨[N], yf⟩).flat.getD
                      (2 * (i * xf.length + j) + 1) 0,
                   df.getD (i * N + j) 0 - minFlat df)
              faces := facesFor yf.length
              rawNormals := rawNormalsGrid xf yf fun i j =>
                df.getD (i * N + j) 0
              vertexColors := none } := by
  simp only [create_mesh]
  rw [if_neg (by simp [NDArray.ndim]), if_neg (by simp [NDArray.ndim]),
    if_neg (by simp [NDArray.ndim]), if_neg (by simp [colorsNdimBad]),
    if_neg (by simp [hx, hy]), if_neg (by simp; omega), if_neg (by simp)]
  simp

theorem chain_lt_getD (l : List ℚ) (h : List.Chain' (· < ·) l) :
    ∀ k, k + 1 < l.length → l.getD k 0 < l.getD (k + 1) 0 := by
  intro k hk
  rw [List.getD_eq_getElem _ _ (by omega), List.getD_eq_getElem _ _ hk]
  have := List.chain'_iff_get.mp h k (by omega)
  simpa [List.get_eq_getElem] using this

theorem idx_lt_grid (i j n p : ℕ) (hi : i < n) (hj : j < p) :
    i * p + j < n * p := by
  calc i * p + j < i * p + p := by omega
  _ = (i + 1) * p := by ring
  _ ≤ n * p := Nat.mul_le_mul_right p (by omega)

theorem unitNormal_of_raw (a b : ℚ) :
    unitNormal (a, b, -1)
      = (-(a : ℝ) / Real.sqrt ((a : ℝ) ^ 2 + (b : ℝ) ^ 2 + 1),
         -(b : ℝ) / Real.sqrt ((a : ℝ) ^ 2 + (b : ℝ) ^ 2 + 1),
         (1 : ℝ) / Real.sqrt ((a : ℝ) ^ 2 + (b : ℝ) ^ 2 + 1)) := by
  unfold unitNormal mag3
  push_cast
  norm_num

theorem unitNormal_vertical :
    unitNormal (0, 0, -1) = ((0 : ℝ), (0 : ℝ), (1 : ℝ)) := by
  rw [unitNormal_of_raw 0 0]
  norm_num [Real.sqrt_one]

theorem one_le_mag3_of_z (v : ℚ × ℚ × ℚ) (hz : v.2.2 = -1) :
    1 ≤ mag3 v := by
  unfold mag3
  rw [hz]
  push_cast
  calc (1 : ℝ) = Real.sqrt 1 := Real.sqrt_one.symm
  _ ≤ Real.sqrt ((v.1 : ℝ) ^ 2 + (v.2.1 : ℝ) ^ 2 + (-1 : ℝ) ^ 2) := by
      apply Real.sqrt_le_sqrt
      nlinarith [sq_nonneg ((v.1 : ℝ)), sq_nonneg ((v.2.1 : ℝ))]

theorem norm3R_unitNormal (v : ℚ × ℚ × ℚ) (hz : v.2.2 = -1) :
    norm3R (unitNormal v) = 1 := by
  have hs : (0 : ℝ) < (v.1 : ℝ) ^ 2 + (v.2.1 : ℝ) ^ 2 + (v.2.2 : ℝ) ^ 2 := by
    rw [hz]
    push_cast
    nlinarith [sq_nonneg ((v.1 : ℝ)), sq_nonneg ((v.2.1 : ℝ))]
  have hm2 : mag3 v ^ 2
      = (v.1 : ℝ) ^ 2 + (v.2.1 : ℝ) ^ 2 + (v.2.2 : ℝ) ^ 2 :=
    Real.sq_sqrt hs.le
  have hm0 : mag3 v ≠ 0 := by
    unfold mag3
    exact (Real.sqrt_pos.mpr hs).ne'
  unfold norm3R unitNormal
  have hsum : (-(v.1 : ℝ) / mag3 v) ^ 2 + (-(v.2.1 : ℝ) / mag3 v) ^ 2
      + (-(v.2.2 : ℝ) / mag3 v) ^ 2
      = ((v.1 : ℝ) ^ 2 + (v.2.1 : ℝ) ^ 2 + (v.2.2 : ℝ) ^ 2) / mag3 v ^ 2 := by
    field_simp
  rw [hsum, hm2, div_self hs.ne']
  exact Real.sqrt_one

/-! ## Claim theorems -/

/-- Claim C1 (code bug): on the valid non-square input `x = [0,1]`,
`y = [0,1,2]`, `data = zeros(2,3)` the code does not return a mesh with
`2*(Nx-1)*(Ny-1) = 4` faces all indexing below `Nx*Ny = 6`: it raises a
broadcast error while assembling the vertices, and the face list its loop
would build (both loop bounds derived from `len(y) = 3`) has `8` faces, one
of which references vertex index `8 >= 6`. -/
theorem c1_square_face_bug :
    create_mesh ⟨[2], [0, 1]⟩ ⟨[3], [0, 1, 2]⟩ ⟨[2, 3], [0, 0, 0, 0, 0, 0]⟩
        none
      = .error "could not broadcast input array into coordinate grid shape"
    ∧ (facesFor 3).length = 8
    ∧ (facesFor 3).length ≠ 2 * (2 - 1) * (3 - 1)
    ∧ ((facesFor 3).any fun f =>
        decide (2 * 3 ≤ f.1) || decide (2 * 3 ≤ f.2.1)
          || decide (2 * 3 ≤ f.2.2)) = true := by
  refine ⟨by decide, by decide, by decide, by decide⟩

/-- Claim C2 (amended): `create_mesh` raises `ValueError` whenever `x` or
`y` is not 1-D, `data` or `colors` is not 2-D (these explicit checks run
before any geometry), and also whenever an axis length does not match the
corresponding dimension of `data` (that failure comes from `np.gradient`,
inside the geometry stage).  A `colors` array whose 2-D shape differs from
`data`'s is NOT rejected (see the counterexample). -/
theorem c2_dimension_validation (x y data : NDArray)
    (colors : Option NDArray)
    (hdim : x.ndim ≠ 1 ∨ y.ndim ≠ 1 ∨ data.ndim ≠ 2
      ∨ colorsNdimBad colors = true
      ∨ x.flat.length ≠ data.shape.headD 0
      ∨ y.flat.length ≠ (data.shape.drop 1).headD 0) :
    (create_mesh x y data colors).isOk = false := by
  cases hr : create_mesh x y data colors with
  | error e => rfl
  | ok m =>
    obtain ⟨e1, e2, e3, e4, e5, -, -, -, -, -, -, -⟩ :=
      create_mesh_ok_inv _ _ _ _ _ hr
    have ecol : colorsNdimBad colors = false := by
      cases colors with
      | none => rfl
      | some cc =>
        simp only [create_mesh] at hr
        split_ifs at hr with h1 h2 h3 h4
        simp [h4]
    rcases hdim with h | h | h | h | h | h
    · exact absurd e1 h
    · exact absurd e2 h
    · exact absurd e3 h
    · rw [ecol] at h
      exact Bool.noConfusion h
    · exact absurd e4 h
    · exact absurd e5 h

/-- Witness for C2's amended theorem: a 2-D `x` axis is rejected. -/
theorem c2_dimension_validation_witness :
    (create_mesh ⟨[2, 2], [0, 1, 2, 3]⟩ ⟨[2], [0, 1]⟩
      ⟨[2, 2], [0, 0, 0, 0]⟩ none).isOk = false :=
  c2_dimension_validation _ _ _ _ (Or.inl (by decide))

/-- Counterexample for C2 as stated: `colors` is 2-D but its shape `(1, 4)`
differs from `data`'s shape `(2, 2)`, yet `create_mesh` succeeds instead of
failing with `InvalidDimension`. -/
theorem c2_colors_shape_unchecked :
    (create_mesh ⟨[2], [0, 1]⟩ ⟨[2], [0, 1]⟩ ⟨[2, 2], [0, 0, 0, 0]⟩
      (some ⟨[1, 4], [1, 2, 3, 4]⟩)).isOk = true := by decide

/-- Claim C3: with `thickness = 0` (and any positive scale),
`add_conformal_layer` returns the channel's height matrix itself, exactly
(the [0..] entries are only wrapped in the gap-marker type). -/
theorem c3_zero_thickness_roundtrip (engine : RayEngine) (ch : Channel)
    (scale : ℚ) (hs : 0 < scale) :
    add_conformal_layer engine ch 0 scale = .ok (toOptGrid ch.data) := by
  unfold add_conformal_layer
  rw [if_neg (by norm_num), if_neg (not_le.mpr hs), if_pos rfl]

/-- Witness for C3 at a concrete channel. -/
theorem c3_zero_thickness_roundtrip_witness :
    add_conformal_layer (fun _ _ _ => [])
        ⟨[0, 1], [0, 1], [[1, 2], [3, 4]]⟩ 0 1
      = .ok (toOptGrid [[1, 2], [3, 4]]) :=
  c3_zero_thickness_roundtrip (fun _ _ _ => [])
    ⟨[0, 1], [0, 1], [[1, 2], [3, 4]]⟩ 1 (by norm_num)

/-- Claim C5: `add_conformal_layer` raises `ValueError` whenever
`thickness < 0` or `scale <= 0`; the checks run before the zero-thickness
no-op, so `thickness = 0` with `scale <= 0` still raises the scale error
rather than returning the data. -/
theorem c5_invalid_parameters (engine : RayEngine) (ch : Channel) (t s : ℚ)
    (h : t < 0 ∨ s ≤ 0) :
    raisesError (add_conformal_layer engine ch t s) = true
    ∧ (t = 0 → s ≤ 0 →
        add_conformal_layer engine ch t s
          = .error "invalid scale, must be greater than 0") := by
  constructor
  · unfold add_conformal_layer
    split_ifs with h1 h2 h3
    · rfl
    · rfl
    · exfalso
      rcases h with h | h
      · exact h1 h
      · exact h2 h
    · exfalso
      rcases h with h | h
      · exact h1 h
      · exact h2 h
  · intro ht0 hs0
    subst ht0
    unfold add_conformal_layer
    rw [if_neg (by norm_num), if_pos hs0]

/-- Witness for C5: `thickness = 0` and `scale = -1` raises the scale
error instead of taking the no-op path. -/
theorem c5_invalid_parameters_witness :
    raisesError (add_conformal_layer (fun _ _ _ => [])
        ⟨[0, 1], [0, 1], [[1, 2], [3, 4]]⟩ 0 (-1)) = true
    ∧ ((0 : ℚ) = 0 → (-1 : ℚ) ≤ 0 →
        add_conformal_layer (fun _ _ _ => [])
          ⟨[0, 1], [0, 1], [[1, 2], [3, 4]]⟩ 0 (-1)
          = .error "invalid scale, must be greater than 0") :=
  c5_invalid_parameters (fun _ _ _ => [])
    ⟨[0, 1], [0, 1], [[1, 2], [3, 4]]⟩ 0 (-1) (Or.inr (by norm_num))

/-- Claim C6 (amended): for every valid SQUARE input (`Nx = Ny = N >= 2`,
axes whose lengths match the `(N, N)` height grid), `create_mesh` returns a
mesh with exactly `N * N` vertices, the list of vertex z-coordinates is
exactly the height list with the grid minimum subtracted, and the minimum
z-coordinate is exactly `0`.  (For `Nx != Ny` no mesh is returned at all:
see the counterexample.) -/
theorem c6_square_min_to_zero (N : ℕ) (xf yf df : List ℚ) (hN : 2 ≤ N)
    (hx : xf.length = N) (hy : yf.length = N) (hd : df.length = N * N) :
    ((create_mesh ⟨[N], xf⟩ ⟨[N], yf⟩ ⟨[N, N], df⟩ none).toOption.map
        fun m => m.vertices.length) = some (N * N)
    ∧ ((create_mesh ⟨[N], xf⟩ ⟨[N], yf⟩ ⟨[N, N], df⟩ none).toOption.map
        fun m => m.vertices.map fun v => v.2.2)
      = some (df.map (· - minFlat df))
    ∧ ((create_mesh ⟨[N], xf⟩ ⟨[N], yf⟩ ⟨[N, N], df⟩ none).toOption.map
        fun m => minFlat (m.vertices.map fun v => v.2.2)) = some 0 := by
  rw [create_mesh_square_ok N hN xf yf df hx hy]
  simp only [Except.toOption, Option.map_some']
  have hzmap : (((List.range yf.length).flatMap fun i =>
      (List.range xf.length).map fun j =>
        ((xy_to_coords ⟨[N], xf⟩ ⟨[N], yf⟩).flat.getD
            (2 * (i * xf.length + j)) 0,
         (xy_to_coords ⟨[N], xf⟩ ⟨[N], yf⟩).flat.getD
            (2 * (i * xf.length + j) + 1) 0,
         df.getD (i * N + j) 0 - minFlat df)).map fun v => v.2.2)
      = df.map (· - minFlat df) := by
    rw [List.map_flatMap]
    simp only [List.map_map]
    have hcongr : ((List.range yf.length).flatMap fun i =>
        (List.range xf.length).map fun j =>
          df.getD (i * N + j) 0 - minFlat df)
        = (List.range yf.length).flatMap fun i =>
          (List.range xf.length).map fun j =>
            (df.map (· - minFlat df)).getD (i * N + j) 0 := by
      apply flatMapRange_congr
      intro i hi j hj
      have hk : i * N + j < df.length := by
        rw [hd]
        exact idx_lt_grid i j N N (by omega) (by omega)
      rw [List.getD_eq_getElem _ _ hk,
        List.getD_eq_getElem _ _
          (show i * N + j < (df.map (· - minFlat df)).length by
            simpa using hk),
        List.getElem_map]
    calc ((List.range yf.length).flatMap fun i =>
        List.map ((fun v : ℚ × ℚ × ℚ => v.2.2) ∘ fun j =>
          ((xy_to_coords ⟨[N], xf⟩ ⟨[N], yf⟩).flat.getD
              (2 * (i * xf.length + j)) 0,
           (xy_to_coords ⟨[N], xf⟩ ⟨[N], yf⟩).flat.getD
              (2 * (i * xf.length + j) + 1) 0,
           df.getD (i * N + j) 0 - minFlat df)) (List.range xf.length))
        = (List.range yf.length).flatMap fun i =>
          (List.range xf.length).map fun j =>
            df.getD (i * N + j) 0 - minFlat df := rfl
    _ = (List.range yf.length).flatMap fun i =>
          (List.range xf.length).map fun j =>
            (df.map (· - minFlat df)).getD (i * N + j) 0 := hcongr
    _ = df.map (· - minFlat df) := by
        rw [hx, hy]
        exact flatMapRange_getD_self (df.map (· - minFlat df)) 0 N N
          (by rw [List.length_map, hd])
  have hne : df ≠ [] := by
    intro hnil
    rw [hnil] at hd
    simp at hd
    omega
  refine ⟨?_, ?_, ?_⟩
  · rw [Option.some_inj, length_flatMapRange _ _ xf.length
      (fun k _ => by simp), hx, hy]
  · rw [Option.some_inj]
    exact hzmap
  · rw [Option.some_inj, hzmap, minFlat_map_sub df _ hne, sub_self]

/-- Witness for C6's amended theorem at the concrete grid
`N = 2`, `data = [[4,3],[2,1]]`. -/
theorem c6_square_min_to_zero_witness :
    ((create_mesh ⟨[2], [0, 1]⟩ ⟨[2], [0, 1]⟩ ⟨[2, 2], [4, 3, 2, 1]⟩
        none).toOption.map fun m => m.vertices.length) = some (2 * 2)
    ∧ ((create_mesh ⟨[2], [0, 1]⟩ ⟨[2], [0, 1]⟩ ⟨[2, 2], [4, 3, 2, 1]⟩
        none).toOption.map fun m => m.vertices.map fun v => v.2.2)
      = some ([4, 3, 2, 1].map (· - minFlat [4, 3, 2, 1]))
    ∧ ((create_mesh ⟨[2], [0, 1]⟩ ⟨[2], [0, 1]⟩ ⟨[2, 2], [4, 3, 2, 1]⟩
        none).toOption.map fun m =>
          minFlat (m.vertices.map fun v => v.2.2)) = some 0 :=
  c6_square_min_to_zero 2 [0, 1] [0, 1] [4, 3, 2, 1] (by norm_num)
    rfl rfl rfl

/-- Counterexample for C6 as stated: on the valid non-square input
`Nx = 3`, `Ny = 2` no mesh is returned at all (numpy broadcast failure at
the vertex-assembly step), so the stated vertex/z-coordinate invariant
fails for non-square grids. -/
theorem c6_nonsquare_counterexample :
    create_mesh ⟨[3], [0, 1, 2]⟩ ⟨[2], [0, 1]⟩ ⟨[3, 2], [1, 2, 3, 4, 5, 6]⟩
        none
      = .error "could not broadcast input array into coordinate grid shape" := by
  decide

/-- Claim C7 (amended): `xy_to_coords` is a pure function of the two axes
using the TRANSPOSED convention: the result has shape
`(len(y), len(x), 2)` and entry `(i, j)` is the pair `(y[i], x[j])`.  It
performs no dimensionality validation at all: a non-1-D axis is silently
flattened by `np.meshgrid` rather than rejected (see the counterexample),
so no `InvalidDimension` failure exists on this path. -/
theorem c7_xy_to_coords_transposed (x y : NDArray) (i j : ℕ)
    (hi : i < y.flat.length) (hj : j < x.flat.length) :
    (xy_to_coords x y).shape = [y.flat.length, x.flat.length, 2]
    ∧ (xy_to_coords x y).flat.getD (2 * (i * x.flat.length + j)) 0
        = y.flat.getD i 0
    ∧ (xy_to_coords x y).flat.getD (2 * (i * x.flat.length + j) + 1) 0
        = x.flat.getD j 0 :=
  ⟨rfl, (xy_to_coords_getD x y i j hi hj).1,
    (xy_to_coords_getD x y i j hi hj).2⟩

/-- Witness for C7's amended theorem at concrete axes. -/
theorem c7_xy_to_coords_transposed_witness :
    (xy_to_coords ⟨[3], [10, 20, 30]⟩ ⟨[2], [5, 6]⟩).shape = [2, 3, 2]
    ∧ (xy_to_coords ⟨[3], [10, 20, 30]⟩ ⟨[2], [5, 6]⟩).flat.getD
        (2 * (1 * 3 + 2)) 0 = 6
    ∧ (xy_to_coords ⟨[3], [10, 20, 30]⟩ ⟨[2], [5, 6]⟩).flat.getD
        (2 * (1 * 3 + 2) + 1) 0 = 30 :=
  c7_xy_to_coords_transposed ⟨[3], [10, 20, 30]⟩ ⟨[2], [5, 6]⟩ 1 2
    (by decide) (by decide)

/-- Counterexample for C7 as stated: a 2-D `x` axis is not rejected with
`InvalidDimension`; `xy_to_coords` silently flattens it and returns a
well-defined coordinate grid. -/
theorem c7_no_dimension_check :
    xy_to_coords ⟨[2, 2], [0, 1, 2, 3]⟩ ⟨[2], [5, 6]⟩
      = ⟨[2, 4, 2], [5, 0, 5, 1, 5, 2, 5, 3, 6, 0, 6, 1, 6, 2, 6, 3]⟩ := by
  decide

/-- Claim C10: every raw normal stored by `create_mesh` has z-component
exactly `-1`, hence magnitude at least `1` (so the normalising division
never divides by zero and the degenerate zero-magnitude case is
unreachable), and the normalised normal has unit magnitude. -/
theorem c10_normals_never_degenerate (x y data : NDArray)
    (colors : Option NDArray) (m : MeshQ) (v : ℚ × ℚ × ℚ)
    (hm : create_mesh x y data colors = .ok m) (hv : v ∈ m.rawNormals) :
    v.2.2 = -1 ∧ 1 ≤ mag3 v ∧ mag3 v ≠ 0
    ∧ norm3R (unitNormal v) = 1 := by
  obtain ⟨-, -, -, -, -, -, -, -, hraw, -, -, -⟩ :=
    create_mesh_ok_inv _ _ _ _ _ hm
  rw [hraw] at hv
  have hz : v.2.2 = -1 := by
    unfold rawNormalsGrid at hv
    rw [List.mem_flatMap] at hv
    obtain ⟨i, -, hv⟩ := hv
    rw [List.mem_map] at hv
    obtain ⟨j, -, hv⟩ := hv
    rw [← hv]
  refine ⟨hz, one_le_mag3_of_z v hz, ?_, norm3R_unitNormal v hz⟩
  have h1 := one_le_mag3_of_z v hz
  intro h0
  rw [h0] at h1
  linarith

/-- Witness for C10 at a concrete mesh produced by `create_mesh`. -/
theorem c10_normals_never_degenerate_witness :
    ((0 : ℚ), (0 : ℚ), (-1 : ℚ)).2.2 = -1
    ∧ 1 ≤ mag3 (0, 0, -1) ∧ mag3 (0, 0, -1) ≠ 0
    ∧ norm3R (unitNormal (0, 0, -1)) = 1 := by
  have hnorms : rawNormalsGrid [0, 1] [0, 1]
      (fun i j => ([5, 5, 5, 5] : List ℚ).getD (i * 2 + j) 0)
      = [(0, 0, -1), (0, 0, -1), (0, 0, -1), (0, 0, -1)] := by
    simp [rawNormalsGrid, gradient1D, List.range_succ]
  have hm := create_mesh_square_ok 2 (by norm_num) [0, 1] [0, 1]
    [5, 5, 5, 5] rfl rfl
  rw [hnorms] at hm
  exact c10_normals_never_degenerate _ _ _ _ _ _ hm (by decide)

/-- Claim C8: the offset mesh built by `add_conformal_layer` from a base
mesh translates vertex `k` by `thickness` times vertex normal `k`
(componentwise, over the reals) and carries the base mesh's face list
unchanged (no re-triangulation). -/
theorem c8_offset_mesh (m : MeshQ) (t : ℚ) (k : ℕ)
    (h1 : k < m.vertices.length) (h2 : k < m.rawNormals.length) :
    (offsetMeshOf m t).vertices.getD k (0, 0, 0)
      = (((m.vertices.getD k (0, 0, 0)).1 : ℝ)
           + t * ((vertexNormalsOf m).getD k (0, 0, 0)).1,
         ((m.vertices.getD k (0, 0, 0)).2.1 : ℝ)
           + t * ((vertexNormalsOf m).getD k (0, 0, 0)).2.1,
         ((m.vertices.getD k (0, 0, 0)).2.2 : ℝ)
           + t * ((vertexNormalsOf m).getD k (0, 0, 0)).2.2)
    ∧ (offsetMeshOf m t).faces = m.faces := by
  constructor
  · show (offsetVertices m t).getD k (0, 0, 0) = _
    rw [offsetVertices, getD_zipWith _ _ _ k (0, 0, 0)
      ((0 : ℝ), (0 : ℝ), (0 : ℝ)) (0, 0, 0) h1
      (by
        rw [vertexNormalsOf, List.length_map]
        exact h2)]
  · rfl

/-- Witness for C8 at a concrete mesh. -/
theorem c8_offset_mesh_witness :
    (offsetMeshOf
        { vertices := [(0, 0, 0), (1, 1, 1)]
          faces := [(0, 1, 2)]
          rawNormals := [(0, 0, -1), (0, 0, -1)]
          vertexColors := none } 2).vertices.getD 0 (0, 0, 0)
      = ((((0 : ℚ), (0 : ℚ), (0 : ℚ)).1 : ℝ)
           + (2 : ℚ) * ((vertexNormalsOf
              { vertices := [(0, 0, 0), (1, 1, 1)]
                faces := [(0, 1, 2)]
                rawNormals := [(0, 0, -1), (0, 0, -1)]
                vertexColors := none }).getD 0 (0, 0, 0)).1,
         (((0 : ℚ), (0 : ℚ), (0 : ℚ)).2.1 : ℝ)
           + (2 : ℚ) * ((vertexNormalsOf
              { vertices := [(0, 0, 0), (1, 1, 1)]
                faces := [(0, 1, 2)]
                rawNormals := [(0, 0, -1), (0, 0, -1)]
                vertexColors := none }).getD 0 (0, 0, 0)).2.1,
         (((0 : ℚ), (0 : ℚ), (0 : ℚ)).2.2 : ℝ)
           + (2 : ℚ) * ((vertexNormalsOf
              { vertices := [(0, 0, 0), (1, 1, 1)]
                faces := [(0, 1, 2)]
                rawNormals := [(0, 0, -1), (0, 0, -1)]
                vertexColors := none }).getD 0 (0, 0, 0)).2.2)
    ∧ (offsetMeshOf
        { vertices := [(0, 0, 0), (1, 1, 1)]
          faces := [(0, 1, 2)]
          rawNormals := [(0, 0, -1), (0, 0, -1)]
          vertexColors := none } 2).faces = [(0, 1, 2)] := by
  have h := c8_offset_mesh
    { vertices := [(0, 0, 0), (1, 1, 1)]
      faces := [(0, 1, 2)]
      rawNormals := [(0, 0, -1), (0, 0, -1)]
      vertexColors := none } 2 0 (by decide) (by decide)
  exact h

/-- Claim C4: (a) the vertex normals stored by `create_mesh` are exactly the
normalised `rawNormalsGrid` of its inputs; (b) for equal-length strictly
monotonic axes and a constant height matrix every normal is the vertical
unit normal `(0,0,1)`; (c) for a planar height matrix
`h(i,j) = a*x[i] + b*y[j] + c` on uniformly spaced axes all normals are
equal, and their common value is `(-a,-b,1)` divided by its norm
(a positive multiple of `(-a,-b,1)`). -/
theorem c4_normal_field :
    (∀ x y data : NDArray, ∀ colors : Option NDArray, ∀ m : MeshQ,
      create_mesh x y data colors = .ok m →
      m.rawNormals = rawNormalsGrid x.flat y.flat fun i j =>
        data.flat.getD (i * ((data.shape.drop 1).headD 0) + j) 0)
    ∧ (∀ xf yf : List ℚ, ∀ v : ℚ, xf.length = yf.length →
        List.Chain' (· < ·) xf → List.Chain' (· < ·) yf →
        (rawNormalsGrid xf yf fun _ _ => v).map unitNormal
          = List.replicate (xf.length * yf.length)
              ((0 : ℝ), (0 : ℝ), (1 : ℝ)))
    ∧ (∀ xf yf : List ℚ, ∀ a b c x0 y0 dx dy : ℚ, dx ≠ 0 → dy ≠ 0 →
        2 ≤ xf.length → 2 ≤ yf.length →
        (∀ i, i < xf.length → xf.getD i 0 = x0 + (i : ℚ) * dx) →
        (∀ j, j < yf.length → yf.getD j 0 = y0 + (j : ℚ) * dy) →
        (rawNormalsGrid xf yf fun i j =>
            a * xf.getD i 0 + b * yf.getD j 0 + c).map unitNormal
          = List.replicate (xf.length * yf.length) (unitNormal (a, b, -1))
        ∧ unitNormal (a, b, -1)
            = (-(a : ℝ) / Real.sqrt ((a : ℝ) ^ 2 + (b : ℝ) ^ 2 + 1),
               -(b : ℝ) / Real.sqrt ((a : ℝ) ^ 2 + (b : ℝ) ^ 2 + 1),
               (1 : ℝ) / Real.sqrt ((a : ℝ) ^ 2 + (b : ℝ) ^ 2 + 1))
        ∧ 0 < Real.sqrt ((a : ℝ) ^ 2 + (b : ℝ) ^ 2 + 1)) := by
  refine ⟨?_, ?_, ?_⟩
  · intro x y data colors m hm
    obtain ⟨-, -, -, -, -, -, -, -, hraw, -, -, -⟩ :=
      create_mesh_ok_inv _ _ _ _ _ hm
    exact hraw
  · intro xf yf v hlen hcx hcy
    have hgrid : (rawNormalsGrid xf yf fun _ _ => v)
        = List.replicate (xf.length * yf.length)
            ((0 : ℚ), (0 : ℚ), (-1 : ℚ)) := by
      unfold rawNormalsGrid
      apply flatMapRange_const
      intro i hi j hj
      rw [gradient1D_const _ v _ i hi (chain_lt_getD xf hcx),
        gradient1D_const _ v _ j hj (chain_lt_getD yf hcy)]
    rw [hgrid, List.map_replicate, unitNormal_vertical]
  · intro xf yf a b c x0 y0 dx dy hdx hdy h2x h2y hux huy
    refine ⟨?_, unitNormal_of_raw a b,
      Real.sqrt_pos.mpr (by positivity)⟩
    have hgrid : (rawNormalsGrid xf yf fun i j =>
        a * xf.getD i 0 + b * yf.getD j 0 + c)
        = List.replicate (xf.length * yf.length) ((a, b, (-1 : ℚ))) := by
      unfold rawNormalsGrid
      apply flatMapRange_const
      intro i hi j hj
      have hgx : gradient1D (fun k => xf.getD k 0)
          (fun k => a * xf.getD k 0 + b * yf.getD j 0 + c)
          xf.length i = a := by
        rw [gradient1D_congr (fun k => xf.getD k 0)
          (fun k => x0 + (k : ℚ) * dx)
          (fun k => a * xf.getD k 0 + b * yf.getD j 0 + c)
          (fun k => a * (x0 + (k : ℚ) * dx) + (b * yf.getD j 0 + c))
          xf.length i h2x hi
          (fun k hk => by simpa using hux k hk)
          (fun k hk => by
            show a * xf.getD k 0 + b * yf.getD j 0 + c
              = a * (x0 + (k : ℚ) * dx) + (b * yf.getD j 0 + c)
            rw [hux k hk]
            ring)]
        exact gradient1D_linear_uniform x0 dx a _ xf.length i hdx h2x hi
      have hgy : gradient1D (fun k => yf.getD k 0)
          (fun k => a * xf.getD i 0 + b * yf.getD k 0 + c)
          yf.length j = b := by
        rw [gradient1D_congr (fun k => yf.getD k 0)
          (fun k => y0 + (k : ℚ) * dy)
          (fun k => a * xf.getD i 0 + b * yf.getD k 0 + c)
          (fun k => b * (y0 + (k : ℚ) * dy) + (a * xf.getD i 0 + c))
          yf.length j h2y hj
          (fun k hk => by simpa using huy k hk)
          (fun k hk => by
            show a * xf.getD i 0 + b * yf.getD k 0 + c
              = b * (y0 + (k : ℚ) * dy) + (a * xf.getD i 0 + c)
            rw [huy k hk]
            ring)]
        exact gradient1D_linear_uniform y0 dy b _ yf.length j hdy h2y hj
      rw [hgx, hgy]
    rw [hgrid, List.map_replicate]

/-- Witness for C4 at concrete constant and planar grids. -/
theorem c4_normal_field_witness :
    ((rawNormalsGrid [0, 1] [0, 1] fun _ _ => (5 : ℚ)).map unitNormal
      = List.replicate 4 ((0 : ℝ), (0 : ℝ), (1 : ℝ)))
    ∧ ((rawNormalsGrid [0, 1] [0, 2] fun i j =>
          2 * ([0, 1] : List ℚ).getD i 0 + 3 * ([0, 2] : List ℚ).getD j 0
            + 1).map unitNormal
        = List.replicate 4 (unitNormal (2, 3, -1))) := by
  constructor
  · have h := c4_normal_field.2.1 [0, 1] [0, 1] 5 rfl
      (by norm_num [List.chain'_cons]) (by norm_num [List.chain'_cons])
    simpa using h
  · have h := (c4_normal_field.2.2 [0, 1] [0, 2] 2 3 1 0 0 1 2
      (by norm_num) (by norm_num) (by norm_num) (by norm_num)
      (by
        intro i hi
        simp only [List.length_cons, List.length_nil] at hi
        interval_cases i <;> simp)
      (by
        intro j hj
        simp only [List.length_cons, List.length_nil] at hj
        interval_cases j <;> simp)).1
    simpa using h

theorem map_length_of_all {α : Type} (g0 : List (List α)) (L : ℕ)
    (h : (g0.all fun r => r.length = L) = true) :
    g0.map List.length = List.replicate g0.length L := by
  induction g0 with
  | nil => rfl
  | cons r t ih =>
    rw [List.all_cons, Bool.and_eq_true] at h
    rw [List.map_cons, List.length_cons, List.replicate_succ,
      ih h.2, of_decide_eq_true h.1]

theorem gridShape_reshape2 (nx ny : ℕ) (l : List (Option ℚ)) :
    gridShape (reshape2 nx ny l) = (nx, List.replicate nx ny) := by
  unfold gridShape reshape2
  rw [List.map_map]
  congr 1
  · simp
  · rw [show (List.length ∘ fun i => (List.range ny).map fun j =>
        l.getD (i * ny + j) none) = fun _ => ny by
        funext i
        simp]
    rw [List.map_const']
    simp

theorem resample_ok_inv (xs ys : List ℚ) (d1 d2 : ℕ)
    (hits : List (ℚ × ℚ × ℚ)) (flat : List (Option ℚ))
    (hr : resample xs ys d1 d2 hits = .ok flat) :
    flat.length = xs.length * ys.length
    ∧ ∀ k, k < xs.length * ys.length →
        flat.getD k none = lastWriteAt xs ys d1 d2 hits k := by
  unfold resample at hr
  cases hws : exceptMapList (hitWrite xs ys d1 d2) hits with
  | error e =>
    rw [hws] at hr
    cases hr
  | ok writes =>
    rw [hws] at hr
    injection hr with hflat
    subst hflat
    constructor
    · rw [npPut_length, List.length_replicate]
    · intro k hk
      rw [npPut_getD writes _ k (by rwa [List.length_replicate])]
      have hfm := exceptMapList_ok_filterMap (hitWrite xs ys d1 d2)
        (fun w => if w.1 = k then some w.2 else none) hits writes hws
      rw [hfm]
      have hinit : (List.replicate (xs.length * ys.length)
          (none : Option ℚ)).getD k none = none := by
        rw [List.getD_eq_getElem _ _ (by rwa [List.length_replicate]),
          List.getElem_replicate]
      rw [hinit]
      unfold lastWriteAt
      cases hl : (hits.filterMap fun p =>
          exceptSelect (fun w => if w.1 = k then some w.2 else none)
            (hitWrite xs ys d1 d2 p)).getLast? with
      | some z => rfl
      | none => rfl

/-- Claim C9: whenever `add_conformal_layer` returns a grid, that grid has
the input height grid's shape; the resampling stage, for every list of ray
hits the engine reports (a ray that misses simply contributes no hit and is
never an error), produces a buffer of the full grid size in which every
cell holds exactly the LAST hit scattered to it (`lastWriteAt`), so cells
no hit maps to stay gap markers; and an all-miss ray query (no hits at
all) resamples without error to the all-gap grid. -/
theorem c9_resample_grid (engine : RayEngine) (ch : Channel) (t s : ℚ)
    (g : List (List (Option ℚ))) (xs ys : List ℚ) (d1 d2 : ℕ)
    (hits : List (ℚ × ℚ × ℚ)) (flat : List (Option ℚ)) (k : ℕ)
    (hch : channelWF ch = true)
    (hg : add_conformal_layer engine ch t s = .ok g)
    (hr : resample xs ys d1 d2 hits = .ok flat)
    (hk : k < xs.length * ys.length) :
    gridShape g = gridShape ch.data
    ∧ flat.length = xs.length * ys.length
    ∧ flat.getD k none = lastWriteAt xs ys d1 d2 hits k
    ∧ resample xs ys d1 d2 []
        = .ok (List.replicate (xs.length * ys.length) none) := by
  refine ⟨?_, (resample_ok_inv _ _ _ _ _ _ hr).1,
    (resample_ok_inv _ _ _ _ _ _ hr).2 k hk, rfl⟩
  unfold add_conformal_layer at hg
  split_ifs at hg with h1 h2 h3
  · -- thickness = 0: the data itself is returned, wrapped in gap markers
    injection hg with hgg
    subst hgg
    unfold gridShape toOptGrid
    rw [List.length_map, List.map_map]
    have : (List.length ∘ fun row : List ℚ => row.map some)
        = List.length := by
      funext r
      simp
    rw [this]
  · -- thickness > 0: the full pipeline ran
    cases hcm : create_mesh
        ⟨[(ch.x.map (· * s)).length], ch.x.map (· * s)⟩
        ⟨[(ch.y.map (· * s)).length], ch.y.map (· * s)⟩
        ⟨[ch.data.length, (ch.data.headD []).length],
          (ch.data.map fun r => r.map (· * s)).flatten⟩ none with
    | error e =>
      rw [hcm] at hg
      cases hg
    | ok m =>
      rw [hcm] at hg
      replace hg : (match resample (ch.x.map (· * s)) (ch.y.map (· * s))
          ch.data.length (ch.data.headD []).length
          (engine (offsetMeshOf m t)
            (rayOriginsOf m (offsetMeshOf m t))
            ((rayOriginsOf m (offsetMeshOf m t)).map
              fun _ => ((0 : ℝ), (0 : ℝ), (-1 : ℝ)))) with
        | .error e => (Except.error e : Except String (List (List (Option ℚ))))
        | .ok flat =>
          Except.ok (reshape2 (ch.x.map (· * s)).length
            (ch.y.map (· * s)).length
            (flat.map (Option.map (· / s))))) = Except.ok g := hg
      cases hres : resample (ch.x.map (· * s)) (ch.y.map (· * s))
          ch.data.length (ch.data.headD []).length
          (engine (offsetMeshOf m t)
            (rayOriginsOf m (offsetMeshOf m t))
            ((rayOriginsOf m (offsetMeshOf m t)).map
              fun _ => ((0 : ℝ), (0 : ℝ), (-1 : ℝ)))) with
      | error e =>
        rw [hres] at hg
        cases hg
      | ok flat2 =>
        rw [hres] at hg
        injection hg with hgg
        subst hgg
        rw [gridShape_reshape2]
        obtain ⟨-, -, -, e4, e5, -, -, -, -, -, -, -⟩ :=
          create_mesh_ok_inv _ _ _ _ _ hcm
        simp only [List.length_map, List.headD_cons, List.drop_succ_cons,
          List.drop_zero] at e4 e5
        unfold gridShape
        rw [map_length_of_all ch.data ((ch.data.headD []).length) hch,
          List.length_map, e4, List.length_map, e5]

/-- Witness for C9: the zero-thickness path returns a grid (of the data's
shape), and a concrete two-hit resample in which both rays scatter to flat
cell 0 keeps the later hit's height there (last write wins) while all
other cells stay gap markers. -/
theorem c9_resample_grid_witness :
    gridShape (toOptGrid [[1, 2], [3, 4]])
        = gridShape ([[1, 2], [3, 4]] : List (List ℚ))
    ∧ ([some 7, none, none, none] : List (Option ℚ)).length = 2 * 2
    ∧ ([some 7, none, none, none] : List (Option ℚ)).getD 0 none
        = lastWriteAt [0, 1] [0, 1] 2 2 [(0, 0, 5), (0, 0, 7)] 0
    ∧ resample [0, 1] [0, 1] 2 2 []
        = .ok (List.replicate (2 * 2) none) := by
  have h := c9_resample_grid (fun _ _ _ => [])
    ⟨[0, 1], [0, 1], [[1, 2], [3, 4]]⟩ 0 1 (toOptGrid [[1, 2], [3, 4]])
    [0, 1] [0, 1] 2 2 [(0, 0, 5), (0, 0, 7)] [some 7, none, none, none] 0
    (by decide)
    (by
      unfold add_conformal_layer
      rw [if_neg (by norm_num), if_neg (by norm_num), if_pos rfl])
    (by decide) (by decide)
  exact h
